import Mathlib

/-!
Verification development for the image-stitching pipeline in
`src/components/ImageStitcher.tsx`.

The compositing pipeline exists twice in the source: a main-thread fallback
(`doStitch`, lines 646-938) and a Web-Worker implementation
(`handleRequest`, lines 1734-1939).  The numeric layout/scaling logic is
embedded over `ℚ` (JS numbers behave exactly like rationals on all inputs
considered here; every operation used is +, -, *, /, min, max, floor,
round), with `Math.floor` as `Int.floor` and `Math.round x` as
`⌊x + 1/2⌋` (JS rounds half-up).  Optional numeric options
(`uniformItemWidth`, `maxOutputWidth`, ...) are `Option ℕ`: the boundary
layer uses the empty string for "unset" and a number otherwise
(`typeof v === "number"` guards in the source).
-/

namespace ImageStitcher

/-- JS `Math.round`: round half away from zero; for the nonnegative
quantities of this pipeline this is `⌊x + 1/2⌋`. -/
def jround (q : ℚ) : ℤ := ⌊q + 1/2⌋

/-- The `orientation` state: `"vertical"` (stacked) or `"horizontal"`
(side-by-side), source line 72. -/
inductive JOrientation
  | vertical
  | horizontal
deriving DecidableEq

/-- The `align` state: `"start" | "center" | "end"`, source line 73
(`end` is a Lean keyword, rendered `aEnd`). -/
inductive JAlign
  | start
  | center
  | aEnd
deriving DecidableEq

/-- Helper for the main-thread uniform sizing (lines 732-749): all four
branches compute `tw = Math.max(1, Math.round(ow*s))`,
`th = Math.max(1, Math.round(oh*s))` for the branch's ratio `s`. -/
def scaleClampPair (s ow oh : ℚ) : ℤ × ℤ :=
  (max 1 (jround (ow * s)), max 1 (jround (oh * s)))

/-- Main-thread per-image target size (`doStitch`, lines 726-752).
The if-chain: uniform width when vertical, else uniform height when
horizontal, else uniform width if set, else uniform height if set,
else the native size.  `d` is the native `(width, height)`. -/
def sizedMain (o : JOrientation) (uniformItemWidth uniformItemHeight : Option ℕ)
    (d : ℕ × ℕ) : ℤ × ℤ :=
  let ow : ℚ := d.1
  let oh : ℚ := d.2
  match o, uniformItemWidth, uniformItemHeight with
  | .vertical, some u, _ => scaleClampPair ((u : ℚ) / ow) ow oh
  | .horizontal, _, some u => scaleClampPair ((u : ℚ) / oh) ow oh
  | _, some u, _ => scaleClampPair ((u : ℚ) / ow) ow oh
  | _, _, some u => scaleClampPair ((u : ℚ) / oh) ow oh
  | _, _, _ => ((d.1 : ℤ), (d.2 : ℤ))

/-- Worker per-image target size (`handleRequest`, lines 1770-1784).
Sequential overwrites: if `uniformItemWidth` is a number then
`tw = uniformItemWidth; th = Math.round((uniformItemWidth / w) * h)`;
then if `uniformItemHeight` is a number then
`th = uniformItemHeight; tw = Math.round((uniformItemHeight / h) * w)`
(using the original `w`, `h`).  No orientation test and no 1px clamp. -/
def sizedWorker (uniformItemWidth uniformItemHeight : Option ℕ)
    (d : ℕ × ℕ) : ℚ × ℚ :=
  let w : ℚ := d.1
  let h : ℚ := d.2
  let t1 : ℚ × ℚ :=
    match uniformItemWidth with
    | some u => ((u : ℚ), ((jround ((u : ℚ) / w * h) : ℤ) : ℚ))
    | none => (w, h)
  match uniformItemHeight with
  | some u => (((jround ((u : ℚ) / h * w) : ℤ) : ℚ), (u : ℚ))
  | none => t1

/-- Raw composite extent before the global scale; the reductions are
character-identical on the main thread (lines 754-765) and in the worker
(lines 1786-1795): stacking axis sums target sizes plus
`gap * (length - 1)`, cross axis takes the max. -/
def rawExtent (o : JOrientation) (gap : ℚ) (ts : List (ℚ × ℚ)) : ℚ × ℚ :=
  match o with
  | .vertical =>
      (ts.foldl (fun m it => max m it.1) 0,
       ts.foldl (fun s it => s + it.2) 0 + gap * (((ts.length : ℤ) : ℚ) - 1))
  | .horizontal =>
      (ts.foldl (fun s it => s + it.1) 0 + gap * (((ts.length : ℤ) : ℚ) - 1),
       ts.foldl (fun m it => max m it.2) 0)

/-- Main-thread global scale (lines 767-771):
`Math.min(1, limitW / rawW, limitH / rawH)` with `Infinity` for an unset
bound.  An infinite operand never decides a `min` against finite ones, so
for `rawW, rawH > 0` (guaranteed: `doStitch` returns early on an empty
list, line 647, and every target side is clamped to `≥ 1`) dropping the
unset operands is exact; theorems below carry those positivity
hypotheses. -/
def scaleMain (maxOutputWidth maxOutputHeight : Option ℕ)
    (rawW rawH : ℚ) : ℚ :=
  let s1 : ℚ :=
    match maxOutputWidth with
    | some m => min 1 ((m : ℚ) / rawW)
    | none => 1
  match maxOutputHeight with
  | some m => min s1 ((m : ℚ) / rawH)
  | none => s1

/-- Worker global scale (lines 1797-1802): start at 1, shrink by
`m / raw` only when the bound is a number and `raw` exceeds it. -/
def scaleWorker (maxOutputWidth maxOutputHeight : Option ℕ)
    (rawW rawH : ℚ) : ℚ :=
  let s0 : ℚ := 1
  let s1 : ℚ :=
    match maxOutputWidth with
    | some m => if (m : ℚ) < rawW then min s0 ((m : ℚ) / rawW) else s0
    | none => s0
  match maxOutputHeight with
  | some m => if (m : ℚ) < rawH then min s1 ((m : ℚ) / rawH) else s1
  | none => s1

/-- Main-thread final content dimensions (lines 773-774):
`Math.max(1, Math.floor(raw * scale))`. -/
def finalDimsMain (rawW rawH scale : ℚ) : ℤ × ℤ :=
  (max 1 ⌊rawW * scale⌋, max 1 ⌊rawH * scale⌋)

/-- Worker final content dimensions (lines 1804-1805):
`Math.max(1, Math.round(raw * scale))` — round, not floor. -/
def finalDimsWorker (rawW rawH scale : ℚ) : ℤ × ℤ :=
  (max 1 (jround (rawW * scale)), max 1 (jround (rawH * scale)))

/-- Scaled gap, `Math.round(gap * scale)`, identical on both paths
(line 775 and line 1830). -/
def scaledGap (gap scale : ℚ) : ℤ := jround (gap * scale)

/-- Per-image destination size inside the draw loop, identical on both
paths (lines 816-817 and 1843-1844): `Math.max(1, Math.round(t * scale))`. -/
def drawSize (scale t : ℚ) : ℤ := max 1 (jround (t * scale))

/-- Cross-axis offset per `align`, identical on both paths
(lines 818-823 / 846-851 and 1845-1850 / 1867-1872):
`start → 0`, `center → Math.round((extent - size) / 2)`,
`end → extent - size`. -/
def alignOffset (a : JAlign) (extent size : ℤ) : ℤ :=
  match a with
  | .start => 0
  | .center => jround (((extent - size : ℤ) : ℚ) / 2)
  | .aEnd => extent - size

/-- One planned draw rectangle: destination position and size. -/
structure Place where
  x : ℤ
  y : ℤ
  dw : ℤ
  dh : ℤ
deriving DecidableEq

/-- Vertical draw loop (lines 812-838 on the main thread, 1839-1860 in the
worker; the two loops are identical).  `i` is the loop index and `y` the
running offset; a gap band of `sg` is inserted before every image except
the first whenever `sg > 0`. -/
def placeVertical (a : JAlign) (scale : ℚ) (sg finalW : ℤ) :
    List (ℚ × ℚ) → ℕ → ℤ → List Place
  | [], _, _ => []
  | it :: rest, i, y =>
    let dw := drawSize scale it.1
    let dh := drawSize scale it.2
    let x := alignOffset a finalW dw
    let y1 := if 0 < i ∧ 0 < sg then y + sg else y
    ⟨x, y1, dw, dh⟩ :: placeVertical a scale sg finalW rest (i + 1) (y1 + dh)

/-- Horizontal draw loop (lines 839-867 / 1861-1883), mirror image of
`placeVertical`. -/
def placeHorizontal (a : JAlign) (scale : ℚ) (sg finalH : ℤ) :
    List (ℚ × ℚ) → ℕ → ℤ → List Place
  | [], _, _ => []
  | it :: rest, i, x =>
    let dw := drawSize scale it.1
    let dh := drawSize scale it.2
    let y := alignOffset a finalH dh
    let x1 := if 0 < i ∧ 0 < sg then x + sg else x
    ⟨x1, y, dw, dh⟩ :: placeHorizontal a scale sg finalH rest (i + 1) (x1 + dw)

/-- The derived layout plan of one job. -/
structure Plan where
  rawW : ℚ
  rawH : ℚ
  scale : ℚ
  finalW : ℤ
  finalH : ℤ
  sgap : ℤ
  places : List Place
deriving DecidableEq

/-- The whole main-thread layout computation of `doStitch`
(lines 726-867) as one function of the option snapshot and the native
image sizes. -/
def mainPlan (o : JOrientation) (a : JAlign) (gap : ℕ)
    (uniformItemWidth uniformItemHeight maxOutputWidth maxOutputHeight : Option ℕ)
    (imgs : List (ℕ × ℕ)) : Plan :=
  let ts : List (ℚ × ℚ) :=
    imgs.map fun d =>
      let p := sizedMain o uniformItemWidth uniformItemHeight d
      ((p.1 : ℚ), (p.2 : ℚ))
  let raw := rawExtent o (gap : ℚ) ts
  let s := scaleMain maxOutputWidth maxOutputHeight raw.1 raw.2
  let fd := finalDimsMain raw.1 raw.2 s
  let sg := scaledGap (gap : ℚ) s
  let pl :=
    match o with
    | .vertical => placeVertical a s sg fd.1 ts 0 0
    | .horizontal => placeHorizontal a s sg fd.2 ts 0 0
  ⟨raw.1, raw.2, s, fd.1, fd.2, sg, pl⟩

/-- The whole worker layout computation of `handleRequest`
(lines 1769-1883) as one function of the request options and the bitmap
sizes. -/
def workerPlan (o : JOrientation) (a : JAlign) (gap : ℕ)
    (uniformItemWidth uniformItemHeight maxOutputWidth maxOutputHeight : Option ℕ)
    (imgs : List (ℕ × ℕ)) : Plan :=
  let ts : List (ℚ × ℚ) := imgs.map (sizedWorker uniformItemWidth uniformItemHeight)
  let raw := rawExtent o (gap : ℚ) ts
  let s := scaleWorker maxOutputWidth maxOutputHeight raw.1 raw.2
  let fd := finalDimsWorker raw.1 raw.2 s
  let sg := scaledGap (gap : ℚ) s
  let pl :=
    match o with
    | .vertical => placeVertical a s sg fd.1 ts 0 0
    | .horizontal => placeHorizontal a s sg fd.2 ts 0 0
  ⟨raw.1, raw.2, s, fd.1, fd.2, sg, pl⟩

/-! ## Watermark renderer (`drawWatermark`)

The main-thread renderer lives at lines 164-278, the worker renderer at
lines 1617-1732.  Only the image-watermark geometry is modelled: the
scaled size (lines 240-243 / 1694-1697) and the translation applied by
`drawAt` (lines 244-250 / 1698-1704). -/

/-- Scaled watermark-image size, identical on both paths
(lines 240-243 and 1694-1697): `targetW = base.width * scale;
ratio = targetW / image.width; w = targetW; h = image.height * ratio`. -/
def wmImageSize (canvasW scale iw ih : ℚ) : ℚ × ℚ :=
  let targetW := canvasW * scale
  let ratio := targetW / iw
  (targetW, ih * ratio)

/-- Worker `drawAt` translation (lines 1663 and 1700):
`ctx.translate(x + offsetX, y + offsetY)`. -/
def wmDrawAtWorker (x y offsetX offsetY : ℚ) : ℚ × ℚ :=
  (x + offsetX, y + offsetY)

/-- Main-thread `drawAt` translation (lines 209 and 246):
`ctx.translate(x, y)`.  The option record accepts `offsetX`/`offsetY`
(lines 178-179) but the destructuring at lines 184-196 omits them, so
they never reach the draw. -/
def wmDrawAtMain (x y _offsetX _offsetY : ℚ) : ℚ × ℚ :=
  (x, y)

/-! ## Orientation normalizer (`correctOrientation`, `fileToLoadedImage`) -/

/-- Canvas allocation size of `correctOrientation` per EXIF code
(switch at lines 107-157): codes 2-4 keep `(w, h)`, codes 5-8 swap to
`(h, w)`, anything else (including 1) keeps `(w, h)`. -/
def orientationCanvasSize (o w h : ℕ) : ℕ × ℕ :=
  match o with
  | 2 => (w, h)
  | 3 => (w, h)
  | 4 => (w, h)
  | 5 => (h, w)
  | 6 => (h, w)
  | 7 => (h, w)
  | 8 => (h, w)
  | _ => (w, h)

/-- Outcome of EXIF metadata parsing as seen by `fileToLoadedImage`
(lines 288-312): the parse throws, or yields an optional orientation
code (`none` models a falsy `exif.Orientation`, including absence and 0). -/
inductive ExifParse
  | failed
  | ok (o : Option ℕ)
deriving DecidableEq

/-- What `fileToLoadedImage` does with the image: pass it through
unchanged (`warned` records the `console.warn` soft warning), or run
`correctOrientation` with the given code. -/
inductive IngestResult
  | unchanged (warned : Bool)
  | corrected (o : ℕ)
deriving DecidableEq

/-- Control flow of `fileToLoadedImage` (lines 288-322): a parse failure
is caught, warned about and ignored (lines 309-312); a missing/falsy
orientation or code 1 leaves the image untouched; any other code is
corrected.  No branch produces a job error. -/
def fileToLoadedImage (e : ExifParse) : IngestResult :=
  match e with
  | .failed => .unchanged true
  | .ok none => .unchanged false
  | .ok (some o) => if o ≠ 0 ∧ o ≠ 1 then .corrected o else .unchanged false

/-! ## Compositor operation traces

To settle where the rounded-corner clip is in force, the render sequence
is modelled as a list of operations, each tagged with whether the clip
installed at line 1836 (worker) / 808 (main) is active when it runs.
In both functions the `ctx.save()` preceding the clip (line 1831 / 799)
is never matched by a restore before encoding, so once installed the
clip stays active for the rest of the composite; the inner
`save`/`restore` pair around the worker border stroke (lines 1887/1892)
preserves the clip. -/

inductive CKind
  | fillBg
  | clipRounded (r : ℕ)
  | gapBand (i : ℕ)
  | drawImg (i : ℕ)
  | strokeBorder (r lw : ℕ) (color : String)
  | wmTextDraw
  | wmImageDraw
deriving DecidableEq

/-- A compositor operation together with the rounded-clip state in force
when it executes. -/
structure COp where
  kind : CKind
  clipped : Bool
deriving DecidableEq

/-- Recognizes the border-stroke operation. -/
def isStrokeOp (op : COp) : Bool :=
  match op.kind with
  | .strokeBorder _ _ _ => true
  | _ => false

/-- Image-draw section of either path: for each index, a gap band first
when `i > 0 ∧ scaledGap > 0` (lines 824-828 / 1851-1855), then the image
draw; everything inside the clip when one was installed. -/
def imageOps (clip : Bool) (sg : ℤ) : ℕ → ℕ → List COp
  | 0, _ => []
  | n + 1, i =>
    ((if 0 < i ∧ 0 < sg then [⟨.gapBand i, clip⟩] else []) ++
      [⟨.drawImg i, clip⟩]) ++ imageOps clip sg n (i + 1)

/-- Worker render sequence (`handleRequest`, lines 1821-1924):
background, optional clip, images, optional border stroke
(lines 1886-1893), then watermarks.  The stroke reuses `borderRadius`
and `borderColor` and runs while the clip is still active. -/
def workerOps (n borderRadius borderWidth : ℕ) (borderColor : String)
    (sg : ℤ) (hasWmText hasWmImage : Bool) : List COp :=
  let clip := decide (0 < borderRadius)
  [⟨.fillBg, false⟩] ++
    (if 0 < borderRadius then [⟨.clipRounded borderRadius, false⟩] else []) ++
    imageOps clip sg n 0 ++
    (if 0 < borderWidth then
      [⟨.strokeBorder borderRadius borderWidth borderColor, clip⟩] else []) ++
    (if hasWmText then [⟨.wmTextDraw, clip⟩] else []) ++
    (if hasWmImage then [⟨.wmImageDraw, clip⟩] else [])

/-- Main-thread render sequence (`doStitch`, lines 790-893): background,
optional clip, images, then watermarks.  There is no border stroke on
this path — `borderWidth`/`borderColor` are accepted (and sent to the
worker, lines 679-680) but never used in the fallback drawing code. -/
def mainOps (n borderRadius _borderWidth : ℕ) (_borderColor : String)
    (sg : ℤ) (hasWmText hasWmImage : Bool) : List COp :=
  let clip := decide (0 < borderRadius)
  [⟨.fillBg, false⟩] ++
    (if 0 < borderRadius then [⟨.clipRounded borderRadius, false⟩] else []) ++
    imageOps clip sg n 0 ++
    (if hasWmText then [⟨.wmTextDraw, clip⟩] else []) ++
    (if hasWmImage then [⟨.wmImageDraw, clip⟩] else [])

/-! ## Job-control protocol (worker side)

`handleRequest` (lines 1734-1939) together with the module-level
`cancelled` set (line 1573) and the `onmessage` dispatcher
(lines 1941-1949).  The cancellation flag for a job id is observed at
numbered check boundaries: boundary `0` is the `checkCancelled()` call
before canvas allocation (line 1813), boundary `i` for `1 ≤ i ≤ n` the
call after drawing image `i` (lines 1858/1880), and boundary `n+1` the
direct membership test after the image watermark (line 1919, present
only when a watermark image is configured).  Because the set only ever
gains the id while a job runs (line 1945), the observation is monotone;
it is modelled by `cf`, the first boundary at which the flag is seen
(`none` = never). -/

inductive Ev
  | progress (v : ℚ)
  | result
  | cancelledMsg
  | errorMsg (m : String)
deriving DecidableEq

/-- Whether the cancellation flag is observed at boundary `k`. -/
def obs (cf : Option ℕ) (k : ℕ) : Bool :=
  match cf with
  | some c => decide (c ≤ k)
  | none => false

/-- The draw loop from image index `i` with `rem` images left
(lines 1839-1883): each iteration draws, runs `checkCancelled()` (which
throws `Error("cancelled")`), and only then posts `progress (i+1)/n`.
Returns the posted events and whether the loop ran to completion. -/
def runImagesAux (n : ℕ) (cf : Option ℕ) : ℕ → ℕ → List Ev × Bool
  | 0, _ => ([], true)
  | rem + 1, i =>
    if obs cf (i + 1) then ([], false)
    else
      let r := runImagesAux n cf rem (i + 1)
      (Ev.progress (((i : ℚ) + 1) / (n : ℚ)) :: r.1, r.2)

/-- The whole draw loop over the `n` images. -/
def runImages (n : ℕ) (cf : Option ℕ) : List Ev × Bool :=
  runImagesAux n cf n 0

/-- One worker job (`handleRequest`): the posted event sequence and
whether `cancelled.delete(req.id)` ran (line 1921).  A throw from
`checkCancelled` is caught by the surrounding `try` and posted as
`{type:"error", message:"cancelled"}` (lines 1935-1938); the direct
check after the image watermark posts `{type:"cancelled"}` and deletes
the id (lines 1919-1923); otherwise the encoded result is posted
(line 1934).  Image loads and encoding are assumed to succeed. -/
def workerRun (n : ℕ) (hasWmImage : Bool) (cf : Option ℕ) : List Ev × Bool :=
  if obs cf 0 then ([Ev.errorMsg "cancelled"], false)
  else
    let r := runImages n cf
    if r.2 then
      if hasWmImage then
        if obs cf (n + 1) then (r.1 ++ [Ev.cancelledMsg], true)
        else (r.1 ++ [Ev.result], false)
      else (r.1 ++ [Ev.result], false)
    else (r.1 ++ [Ev.errorMsg "cancelled"], false)

/-- The `onmessage` cancel branch (lines 1943-1946): add the id to the
module-level `cancelled` set, whether or not a job with that id is in
flight. -/
def onCancel (s : Finset String) (id : String) : Finset String :=
  insert id s

/-- A request arriving while the set is `s`: if the id is already marked
the very first boundary observes it; otherwise `arrival` is the first
boundary (if any) by which an external cancel message lands.  Returns
the event trace and the set after the job. -/
def workerJob (s : Finset String) (id : String) (n : ℕ) (hasWmImage : Bool)
    (arrival : Option ℕ) : List Ev × Finset String :=
  let cf := if id ∈ s then some 0 else arrival
  let r := workerRun n hasWmImage cf
  (r.1, if r.2 then s.erase id else s)

/-- Reference definition following the spec's words (§4.2 step 1), for
comparison with the two implementations: uniform width applies when
axis=Stacked (vertical), uniform height when axis=SideBySide
(horizontal), the orthogonal uniform value only as a fallback when the
axis-matching one is unset; the constrained dimension is hit exactly and
the other side follows the native aspect ratio, rounded to nearest with
a minimum of 1px per side. -/
def specTargetSize (o : JOrientation) (uniformWidth uniformHeight : Option ℕ)
    (d : ℕ × ℕ) : ℤ × ℤ :=
  match o, uniformWidth, uniformHeight with
  | .vertical, some u, _ =>
      (max 1 (u : ℤ), max 1 (jround ((d.2 : ℚ) * (u : ℚ) / (d.1 : ℚ))))
  | .horizontal, _, some u =>
      (max 1 (jround ((d.1 : ℚ) * (u : ℚ) / (d.2 : ℚ))), max 1 (u : ℤ))
  | _, some u, _ =>
      (max 1 (u : ℤ), max 1 (jround ((d.2 : ℚ) * (u : ℚ) / (d.1 : ℚ))))
  | _, _, some u =>
      (max 1 (jround ((d.1 : ℚ) * (u : ℚ) / (d.2 : ℚ))), max 1 (u : ℤ))
  | _, _, _ => ((d.1 : ℤ), (d.2 : ℤ))

/-! ## Helper lemmas -/

lemma jround_intCast (z : ℤ) : jround (z : ℚ) = z := by
  unfold jround
  refine Int.floor_eq_iff.mpr ⟨by linarith, by linarith⟩

lemma jround_natCast (m : ℕ) : jround (m : ℚ) = m := by
  have := jround_intCast (m : ℤ)
  simpa using this

lemma floor_le_jround (q : ℚ) : ⌊q⌋ ≤ jround q := by
  unfold jround
  exact Int.floor_mono (by linarith)

lemma jround_le_intCast {q : ℚ} {m : ℤ} (h : q ≤ (m : ℚ)) : jround q ≤ m := by
  calc jround q ≤ jround (m : ℚ) := Int.floor_mono (by simpa [jround] using by linarith)
    _ = m := jround_intCast m

lemma floor_le_intCast {q : ℚ} {m : ℤ} (h : q ≤ (m : ℚ)) : ⌊q⌋ ≤ m := by
  calc ⌊q⌋ ≤ ⌊(m : ℚ)⌋ := Int.floor_mono h
    _ = m := Int.floor_intCast m

lemma center_leftover (n : ℤ) :
    2 * jround ((n : ℚ) / 2) - n = 0 ∨ 2 * jround ((n : ℚ) / 2) - n = 1 := by
  rcases Int.even_or_odd n with ⟨k, hk⟩ | ⟨k, hk⟩
  · left
    subst hk
    have h2 : ((k + k : ℤ) : ℚ) / 2 = ((k : ℤ) : ℚ) := by push_cast; ring
    rw [h2, jround_intCast]
    ring
  · right
    subst hk
    have h2 : ((2 * k + 1 : ℤ) : ℚ) / 2 + 1 / 2 = ((k + 1 : ℤ) : ℚ) := by push_cast; ring
    unfold jround
    rw [h2, Int.floor_intCast]
    ring

/-! ## Claim theorems -/

/-- C8: the Orientation Normalizer allocates its canvas with
width/height swapped for EXIF codes 5-8 and unswapped for codes 2-4,
returns the image unchanged for code 1 (and for missing metadata), and a
metadata-parse failure is non-fatal: the image proceeds unrotated with
only a soft warning, never a job error (no branch of
`fileToLoadedImage` yields an error outcome). -/
theorem C8_orientation_normalizer :
    (∀ w h : ℕ,
      orientationCanvasSize 2 w h = (w, h) ∧ orientationCanvasSize 3 w h = (w, h) ∧
      orientationCanvasSize 4 w h = (w, h) ∧ orientationCanvasSize 5 w h = (h, w) ∧
      orientationCanvasSize 6 w h = (h, w) ∧ orientationCanvasSize 7 w h = (h, w) ∧
      orientationCanvasSize 8 w h = (h, w) ∧ orientationCanvasSize 1 w h = (w, h)) ∧
    fileToLoadedImage .failed = .unchanged true ∧
    fileToLoadedImage (.ok none) = .unchanged false ∧
    fileToLoadedImage (.ok (some 1)) = .unchanged false ∧
    (∀ e, fileToLoadedImage e = .unchanged true ∨
      fileToLoadedImage e = .unchanged false ∨
      ∃ o, fileToLoadedImage e = .corrected o) := by
  refine ⟨fun w h => ⟨rfl, rfl, rfl, rfl, rfl, rfl, rfl, rfl⟩, rfl, rfl, rfl, fun e => ?_⟩
  match e with
  | .failed => exact Or.inl rfl
  | .ok none => exact Or.inr (Or.inl rfl)
  | .ok (some o) =>
    by_cases h : o ≠ 0 ∧ o ≠ 1
    · exact Or.inr (Or.inr ⟨o, by simp [fileToLoadedImage, h]⟩)
    · exact Or.inr (Or.inl (by simp only [fileToLoadedImage, if_neg h]))

/-- C1: at the check boundary after an image draw, an observed
cancellation makes the worker abort without encoding (no `result` is
posted), but the single terminal message posted is
`{type:"error", message:"cancelled"}` — not a `cancelled` message as the
claim states.  Concrete run: one image, no watermark image, cancellation
observed at boundary 1. -/
theorem C1_cancel_terminal_is_error :
    workerRun 1 false (some 1) = ([Ev.errorMsg "cancelled"], false) ∧
    Ev.result ∉ (workerRun 1 false (some 1)).1 ∧
    Ev.cancelledMsg ∉ (workerRun 1 false (some 1)).1 := by
  have h : workerRun 1 false (some 1) = ([Ev.errorMsg "cancelled"], false) := by
    norm_num [workerRun, runImages, runImagesAux, obs]
  refine ⟨h, ?_, ?_⟩ <;> simp [h]

/-- C6 counterexample: in the spec's own scenario (3 images 100×200,
150×200, 100×300, axis=Stacked, gap=10, center alignment, no bounds) the
main-thread pipeline places the images at y offsets 0, 210, 420 — not
0, 210, 430 as the claim states (420 = 200 + 10 + 200 + 10, and
420 + 300 = 720 matches the raw height the claim itself gives). -/
theorem C6_y_offsets_cex :
    ((mainPlan .vertical .center 10 none none none none
      [(100, 200), (150, 200), (100, 300)]).places.map Place.y) = [0, 210, 420] ∧
    ([0, 210, 420] : List ℤ) ≠ [0, 210, 430] := by
  constructor
  · norm_num [mainPlan, sizedMain, rawExtent, scaleMain, finalDimsMain, scaledGap,
      placeVertical, drawSize, alignOffset, jround]
  · decide

/-- C6 (amended): on the cross axis, align=Start gives offset 0,
align=End gives `extent − size`, and align=Center rounds
`(extent − size)/2` to an integer, leaving a leftover split that differs
by at most 1px; in the spec's 3-image scenario both pipelines produce
raw extent 150×720, x offsets 25, 0, 25 and y offsets 0, 210, 420. -/
theorem C6_alignment_and_scenario :
    (∀ e s : ℤ,
      alignOffset .start e s = 0 ∧
      alignOffset .aEnd e s = e - s ∧
      (2 * alignOffset .center e s - (e - s) = 0 ∨
        2 * alignOffset .center e s - (e - s) = 1)) ∧
    mainPlan .vertical .center 10 none none none none
        [(100, 200), (150, 200), (100, 300)] =
      ⟨150, 720, 1, 150, 720, 10,
        [⟨25, 0, 100, 200⟩, ⟨0, 210, 150, 200⟩, ⟨25, 420, 100, 300⟩]⟩ ∧
    workerPlan .vertical .center 10 none none none none
        [(100, 200), (150, 200), (100, 300)] =
      ⟨150, 720, 1, 150, 720, 10,
        [⟨25, 0, 100, 200⟩, ⟨0, 210, 150, 200⟩, ⟨25, 420, 100, 300⟩]⟩ := by
  refine ⟨fun e s => ⟨rfl, rfl, ?_⟩, ?_, ?_⟩
  · exact center_leftover (e - s)
  · norm_num [mainPlan, sizedMain, rawExtent, scaleMain, finalDimsMain, scaledGap,
      placeVertical, drawSize, alignOffset, jround]
  · norm_num [workerPlan, sizedWorker, rawExtent, scaleWorker, finalDimsWorker, scaledGap,
      placeVertical, drawSize, alignOffset, jround]

/-- C7 counterexample: the main-thread watermark renderer ignores the
literal pixel offset — `drawAt` translates by the anchor alone — while
the worker applies it; at anchor (10, 10) with offset (5, 7) the claim
demands translation (15, 17) on both paths, but the main thread
translates by (10, 10). -/
theorem C7_main_offset_cex :
    wmDrawAtMain 10 10 5 7 = (10, 10) ∧
    wmDrawAtWorker 10 10 5 7 = (15, 17) ∧
    wmDrawAtMain 10 10 5 7 ≠ wmDrawAtWorker 10 10 5 7 := by
  refine ⟨rfl, by norm_num [wmDrawAtWorker], by norm_num [wmDrawAtMain, wmDrawAtWorker]⟩

/-- C7 (amended): on both paths the watermark image is scaled so its
drawn width equals `scale × canvasWidth` with the native aspect ratio
preserved; the literal pixel offset `(offsetX, offsetY)` is applied
after anchor placement on the worker path only — the main-thread
fallback accepts the offsets but never applies them. -/
theorem C7_watermark_scale_offsets
    (canvasW scale iw ih x y ox oy : ℚ) (hiw : iw ≠ 0) :
    (wmImageSize canvasW scale iw ih).1 = scale * canvasW ∧
    (wmImageSize canvasW scale iw ih).2 * iw = ih * (wmImageSize canvasW scale iw ih).1 ∧
    wmDrawAtWorker x y ox oy = (x + ox, y + oy) ∧
    wmDrawAtMain x y ox oy = (x, y) := by
  refine ⟨by simp [wmImageSize, mul_comm], ?_, rfl, rfl⟩
  simp only [wmImageSize]
  field_simp

lemma scaleClampPair_uniform_w (u : ℕ) (ow oh : ℚ) (h : ow ≠ 0) :
    scaleClampPair ((u : ℚ) / ow) ow oh =
      (max 1 (u : ℤ), max 1 (jround (oh * (u : ℚ) / ow))) := by
  unfold scaleClampPair
  have h1 : ow * ((u : ℚ) / ow) = (u : ℚ) := by field_simp
  have h2 : oh * ((u : ℚ) / ow) = oh * (u : ℚ) / ow := by ring
  rw [h1, h2, jround_natCast]

lemma scaleClampPair_uniform_h (u : ℕ) (ow oh : ℚ) (h : oh ≠ 0) :
    scaleClampPair ((u : ℚ) / oh) ow oh =
      (max 1 (jround (ow * (u : ℚ) / oh)), max 1 (u : ℤ)) := by
  unfold scaleClampPair
  have h1 : oh * ((u : ℚ) / oh) = (u : ℚ) := by field_simp
  have h2 : ow * ((u : ℚ) / oh) = ow * (u : ℚ) / oh := by ring
  rw [h1, h2, jround_natCast]

/-- C2 counterexample: with axis=Stacked (vertical), uniform width 50
and uniform height 80 both set, for a 100×200 image the axis rule (and
the main-thread code) give target 50×100, but the worker gives 40×80:
its later `uniformItemHeight` branch overwrites the width rule
regardless of the axis. -/
theorem C2_worker_axis_rule_cex :
    sizedWorker (some 50) (some 80) (100, 200) = (40, 80) ∧
    specTargetSize .vertical (some 50) (some 80) (100, 200) = (50, 100) ∧
    sizedMain .vertical (some 50) (some 80) (100, 200) = (50, 100) ∧
    sizedWorker (some 50) (some 80) (100, 200) ≠
      (((specTargetSize .vertical (some 50) (some 80) (100, 200)).1 : ℚ),
        ((specTargetSize .vertical (some 50) (some 80) (100, 200)).2 : ℚ)) := by
  have hw : sizedWorker (some 50) (some 80) (100, 200) = (40, 80) := by
    norm_num [sizedWorker, jround]
  have hs : specTargetSize .vertical (some 50) (some 80) (100, 200) = (50, 100) := by
    norm_num [specTargetSize, jround]
  refine ⟨hw, hs, ?_, ?_⟩
  · norm_num [sizedMain, scaleClampPair, jround]
  · rw [hw, hs]
    norm_num

/-- C2 (amended): the main-thread path implements exactly the axis rule
of the spec (uniform width when vertical, uniform height when
horizontal, the orthogonal value as fallback, constrained side hit
exactly, aspect-scaled other side rounded to nearest, 1px minimum); the
worker path ignores the axis: a set uniform height always wins (height
taken exactly, width aspect-rounded), otherwise a set uniform width does
(width exact, height aspect-rounded), with no 1px clamp. -/
theorem C2_target_sizing (o : JOrientation) (uw uh : Option ℕ) (d : ℕ × ℕ)
    (hw : 0 < d.1) (hh : 0 < d.2) :
    sizedMain o uw uh d = specTargetSize o uw uh d ∧
    (∀ u, uh = some u →
      sizedWorker uw uh d =
        (((jround ((u : ℚ) / (d.2 : ℚ) * (d.1 : ℚ)) : ℤ) : ℚ), (u : ℚ))) ∧
    (uh = none → ∀ u, uw = some u →
      sizedWorker uw uh d =
        ((u : ℚ), ((jround ((u : ℚ) / (d.1 : ℚ) * (d.2 : ℚ)) : ℤ) : ℚ))) ∧
    (uh = none → uw = none → sizedWorker uw uh d = ((d.1 : ℚ), (d.2 : ℚ))) := by
  have h1 : ((d.1 : ℕ) : ℚ) ≠ 0 := Nat.cast_ne_zero.mpr hw.ne'
  have h2 : ((d.2 : ℕ) : ℚ) ≠ 0 := Nat.cast_ne_zero.mpr hh.ne'
  refine ⟨?_, ?_, ?_, ?_⟩
  · rcases o with _ | _ <;> rcases uw with _ | u1 <;> rcases uh with _ | u2 <;>
      simp [sizedMain, specTargetSize, scaleClampPair_uniform_w,
        scaleClampPair_uniform_h, h1, h2]
  · rintro u rfl
    rcases uw with _ | u1 <;> simp [sizedWorker]
  · rintro rfl u rfl
    simp [sizedWorker]
  · rintro rfl rfl
    simp [sizedWorker]

/-- C2 witness. -/
theorem C2_target_sizing_witness :
    0 < (100, 200).1 ∧ 0 < (100, 200).2 ∧
    (sizedMain .horizontal (some 50) (some 80) (100, 200) =
      specTargetSize .horizontal (some 50) (some 80) (100, 200) ∧
      (∀ u, (some 80 : Option ℕ) = some u →
        sizedWorker (some 50) (some 80) (100, 200) =
          (((jround ((u : ℚ) / ((100, 200).2 : ℚ) * ((100, 200).1 : ℚ)) : ℤ) : ℚ),
            (u : ℚ))) ∧
      ((some 80 : Option ℕ) = none → ∀ u, (some 50 : Option ℕ) = some u →
        sizedWorker (some 50) (some 80) (100, 200) =
          ((u : ℚ), ((jround ((u : ℚ) / ((100, 200).1 : ℚ) * ((100, 200).2 : ℚ)) : ℤ) : ℚ))) ∧
      ((some 80 : Option ℕ) = none → (some 50 : Option ℕ) = none →
        sizedWorker (some 50) (some 80) (100, 200) =
          (((100, 200).1 : ℚ), ((100, 200).2 : ℚ)))) :=
  ⟨by decide, by decide,
    C2_target_sizing .horizontal (some 50) (some 80) (100, 200) (by decide) (by decide)⟩

lemma imageOps_no_stroke (clip : Bool) (sg : ℤ) :
    ∀ rem i, (imageOps clip sg rem i).filter isStrokeOp = [] := by
  intro rem
  induction rem with
  | zero => intro i; rfl
  | succ k ih =>
    intro i
    simp only [imageOps, List.filter_append, ih, List.append_nil]
    split <;> simp [isStrokeOp]

/-- C3 counterexample: with borderWidth = 2 > 0 and borderRadius = 8,
the main-thread fallback path emits no border stroke at all, while the
worker's stroke runs with the rounded-corner clip still active
(`clipped = true`) — the claim demands an unclipped stroke on both
paths. -/
theorem C3_main_no_border_cex :
    (0 : ℕ) < 2 ∧
    (mainOps 1 8 2 "#e5e7eb" 0 false false).filter isStrokeOp = [] ∧
    (workerOps 1 8 2 "#e5e7eb" 0 false false).filter isStrokeOp =
      [⟨.strokeBorder 8 2 "#e5e7eb", true⟩] ∧
    COp.clipped ⟨.strokeBorder 8 2 "#e5e7eb", true⟩ = true := by decide

/-- C3 (amended): after all images, if borderWidth > 0 the worker path
strokes a rounded rectangle with the same corner radius using
borderColor, but the stroke executes with the rounded-corner clip still
in force whenever borderRadius > 0 (the `ctx.save()` before the clip is
never restored); the main-thread fallback path draws no border stroke
at all. -/
theorem C3_border_stroke (n r bw : ℕ) (c : String) (sg : ℤ) (hT hI : Bool)
    (hbw : 0 < bw) :
    (workerOps n r bw c sg hT hI).filter isStrokeOp =
      [⟨.strokeBorder r bw c, decide (0 < r)⟩] ∧
    (mainOps n r bw c sg hT hI).filter isStrokeOp = [] := by
  constructor <;>
    simp [workerOps, mainOps, List.filter_append, imageOps_no_stroke, isStrokeOp,
      hbw, apply_ite (List.filter isStrokeOp)]

/-- C3 witness. -/
theorem C3_border_stroke_witness :
    (0 : ℕ) < 2 ∧
    ((workerOps 3 8 2 "#abc" 1 true true).filter isStrokeOp =
      [⟨.strokeBorder 8 2 "#abc", decide ((0 : ℕ) < 8)⟩] ∧
      (mainOps 3 8 2 "#abc" 1 true true).filter isStrokeOp = []) :=
  ⟨by decide, C3_border_stroke 3 8 2 "#abc" 1 true true (by decide)⟩

lemma clampBound (s : ℚ) (hs : s ≤ 1) (m : ℕ) (raw : ℚ) (hr : 0 < raw) :
    (if (m : ℚ) < raw then min s ((m : ℚ) / raw) else s) = min s ((m : ℚ) / raw) := by
  split_ifs with h
  · rfl
  · push_neg at h
    exact (min_eq_left (hs.trans ((one_le_div hr).mpr h))).symm

lemma scaleMain_le_one (mw mh : Option ℕ) (rawW rawH : ℚ) :
    scaleMain mw mh rawW rawH ≤ 1 := by
  rcases mw with _ | m1 <;> rcases mh with _ | m2 <;> simp only [scaleMain]
  · exact le_rfl
  · exact min_le_left _ _
  · exact min_le_left _ _
  · exact le_trans (min_le_left _ _) (min_le_left _ _)

lemma scaleMain_nonneg (mw mh : Option ℕ) (rawW rawH : ℚ)
    (h1 : 0 < rawW) (h2 : 0 < rawH) : 0 ≤ scaleMain mw mh rawW rawH := by
  rcases mw with _ | m1 <;> rcases mh with _ | m2 <;> simp only [scaleMain]
  · exact zero_le_one
  · exact le_min zero_le_one (div_nonneg (Nat.cast_nonneg m2) h2.le)
  · exact le_min zero_le_one (div_nonneg (Nat.cast_nonneg m1) h1.le)
  · exact le_min (le_min zero_le_one (div_nonneg (Nat.cast_nonneg m1) h1.le))
      (div_nonneg (Nat.cast_nonneg m2) h2.le)

lemma scaleMain_le_w (mw mh : Option ℕ) (rawW rawH : ℚ) (m : ℕ)
    (hm : mw = some m) : scaleMain mw mh rawW rawH ≤ (m : ℚ) / rawW := by
  subst hm
  rcases mh with _ | m2 <;> simp only [scaleMain]
  · exact min_le_right _ _
  · exact le_trans (min_le_left _ _) (min_le_right _ _)

lemma scaleMain_le_h (mw mh : Option ℕ) (rawW rawH : ℚ) (m : ℕ)
    (hm : mh = some m) : scaleMain mw mh rawW rawH ≤ (m : ℚ) / rawH := by
  subst hm
  rcases mw with _ | m1 <;> simp only [scaleMain] <;> exact min_le_right _ _

/-- C4 counterexample: a zero max-output bound is representable (typing
`0` into the number input passes the `e.target.value ? Number(...) : ""`
parse, lines 1313-1317), and with `maxOutputWidth = 0` on a 100×100 raw
extent the global scale is `0`, which is outside `(0, 1]`, and the
clamped final width is 1, which exceeds the bound 0. -/
theorem C4_zero_bound_cex :
    scaleMain (some 0) none 100 100 = 0 ∧
    ¬ (0 < scaleMain (some 0) none 100 100) ∧
    (finalDimsMain 100 100 (scaleMain (some 0) none 100 100)).1 = 1 ∧
    ¬ ((finalDimsMain 100 100 (scaleMain (some 0) none 100 100)).1 ≤ (0 : ℤ)) := by
  have h : scaleMain (some 0) none 100 100 = 0 := by norm_num [scaleMain]
  rw [h]
  norm_num [finalDimsMain]

/-- C4 (amended): for positive raw extents the worker's conditional
scale computation agrees exactly with the main thread's
`min(1, maxW/rawW, maxH/rawH)`; the scale always lies in `[0, 1]`
(never upscales), lies in `(0, 1]` whenever every set bound is
positive, equals 1 whenever both bounds are unset or already satisfied,
and whenever a set bound is at least 1 the corresponding final content
dimension (floor-based on the main path, round-based on the worker
path) does not exceed it. -/
theorem C4_global_scale (mw mh : Option ℕ) (rawW rawH : ℚ)
    (h1 : 0 < rawW) (h2 : 0 < rawH) :
    scaleWorker mw mh rawW rawH = scaleMain mw mh rawW rawH ∧
    scaleMain mw mh rawW rawH ≤ 1 ∧
    0 ≤ scaleMain mw mh rawW rawH ∧
    ((∀ m, mw = some m → 0 < m) → (∀ m, mh = some m → 0 < m) →
      0 < scaleMain mw mh rawW rawH) ∧
    ((∀ m, mw = some m → rawW ≤ (m : ℚ)) → (∀ m, mh = some m → rawH ≤ (m : ℚ)) →
      scaleMain mw mh rawW rawH = 1) ∧
    (∀ m, mw = some m → 1 ≤ m →
      (finalDimsMain rawW rawH (scaleMain mw mh rawW rawH)).1 ≤ (m : ℤ) ∧
      (finalDimsWorker rawW rawH (scaleMain mw mh rawW rawH)).1 ≤ (m : ℤ)) ∧
    (∀ m, mh = some m → 1 ≤ m →
      (finalDimsMain rawW rawH (scaleMain mw mh rawW rawH)).2 ≤ (m : ℤ) ∧
      (finalDimsWorker rawW rawH (scaleMain mw mh rawW rawH)).2 ≤ (m : ℤ)) := by
  refine ⟨?_, scaleMain_le_one mw mh rawW rawH, scaleMain_nonneg mw mh rawW rawH h1 h2,
    ?_, ?_, ?_, ?_⟩
  · rcases mw with _ | m1 <;> rcases mh with _ | m2 <;>
      simp only [scaleWorker, scaleMain]
    · rw [clampBound 1 le_rfl m2 rawH h2]
    · rw [clampBound 1 le_rfl m1 rawW h1]
    · rw [clampBound 1 le_rfl m1 rawW h1,
        clampBound (min 1 ((m1 : ℚ) / rawW)) (min_le_left _ _) m2 rawH h2]
  · intro hw hh
    rcases mw with _ | m1 <;> rcases mh with _ | m2 <;> simp only [scaleMain]
    · exact zero_lt_one
    · exact lt_min zero_lt_one
        (div_pos (by exact_mod_cast hh m2 rfl) h2)
    · exact lt_min zero_lt_one
        (div_pos (by exact_mod_cast hw m1 rfl) h1)
    · exact lt_min (lt_min zero_lt_one (div_pos (by exact_mod_cast hw m1 rfl) h1))
        (div_pos (by exact_mod_cast hh m2 rfl) h2)
  · intro hw hh
    rcases mw with _ | m1 <;> rcases mh with _ | m2 <;> simp only [scaleMain]
    · exact min_eq_left ((one_le_div h2).mpr (hh m2 rfl))
    · exact min_eq_left ((one_le_div h1).mpr (hw m1 rfl))
    · rw [min_eq_left ((one_le_div h1).mpr (hw m1 rfl)),
        min_eq_left ((one_le_div h2).mpr (hh m2 rfl))]
  · intro m hm hm1
    have hs : scaleMain mw mh rawW rawH ≤ (m : ℚ) / rawW := scaleMain_le_w mw mh rawW rawH m hm
    have hx : rawW * scaleMain mw mh rawW rawH ≤ (m : ℚ) := by
      calc rawW * scaleMain mw mh rawW rawH ≤ rawW * ((m : ℚ) / rawW) := by
            exact mul_le_mul_of_nonneg_left hs h1.le
        _ = (m : ℚ) := by field_simp
    have hxz : rawW * scaleMain mw mh rawW rawH ≤ (((m : ℤ) : ℚ)) := by push_cast; exact hx
    constructor
    · exact max_le (by exact_mod_cast hm1) (floor_le_intCast hxz)
    · exact max_le (by exact_mod_cast hm1) (jround_le_intCast hxz)
  · intro m hm hm1
    have hs : scaleMain mw mh rawW rawH ≤ (m : ℚ) / rawH := scaleMain_le_h mw mh rawW rawH m hm
    have hx : rawH * scaleMain mw mh rawW rawH ≤ (m : ℚ) := by
      calc rawH * scaleMain mw mh rawW rawH ≤ rawH * ((m : ℚ) / rawH) := by
            exact mul_le_mul_of_nonneg_left hs h2.le
        _ = (m : ℚ) := by field_simp
    have hxz : rawH * scaleMain mw mh rawW rawH ≤ (((m : ℤ) : ℚ)) := by push_cast; exact hx
    constructor
    · exact max_le (by exact_mod_cast hm1) (floor_le_intCast hxz)
    · exact max_le (by exact_mod_cast hm1) (jround_le_intCast hxz)

/-- C4 witness. -/
theorem C4_global_scale_witness :
    (0 : ℚ) < 150 ∧ (0 : ℚ) < 720 ∧
    (scaleWorker (some 100) none 150 720 = scaleMain (some 100) none 150 720 ∧
      scaleMain (some 100) none 150 720 ≤ 1 ∧
      0 ≤ scaleMain (some 100) none 150 720 ∧
      ((∀ m, (some 100 : Option ℕ) = some m → 0 < m) →
        (∀ m, (none : Option ℕ) = some m → 0 < m) →
        0 < scaleMain (some 100) none 150 720) ∧
      ((∀ m, (some 100 : Option ℕ) = some m → (150 : ℚ) ≤ (m : ℚ)) →
        (∀ m, (none : Option ℕ) = some m → (720 : ℚ) ≤ (m : ℚ)) →
        scaleMain (some 100) none 150 720 = 1) ∧
      (∀ m, (some 100 : Option ℕ) = some m → 1 ≤ m →
        (finalDimsMain 150 720 (scaleMain (some 100) none 150 720)).1 ≤ (m : ℤ) ∧
        (finalDimsWorker 150 720 (scaleMain (some 100) none 150 720)).1 ≤ (m : ℤ)) ∧
      (∀ m, (none : Option ℕ) = some m → 1 ≤ m →
        (finalDimsMain 150 720 (scaleMain (some 100) none 150 720)).2 ≤ (m : ℤ) ∧
        (finalDimsWorker 150 720 (scaleMain (some 100) none 150 720)).2 ≤ (m : ℤ))) :=
  ⟨by decide, by decide, C4_global_scale (some 100) none 150 720 (by decide) (by decide)⟩

/-- C5 counterexample: for a single 3×4 image under
`maxOutputHeight = 2` the worker derives scale 1/2 and final width
`round(1.5) = 2`, while the floor rule the claim states for both paths
gives `max(1, floor(1.5)) = 1`. -/
theorem C5_worker_round_cex :
    (workerPlan .vertical .center 0 none none none (some 2) [(3, 4)]).finalW = 2 ∧
    (finalDimsMain
      (workerPlan .vertical .center 0 none none none (some 2) [(3, 4)]).rawW
      (workerPlan .vertical .center 0 none none none (some 2) [(3, 4)]).rawH
      (workerPlan .vertical .center 0 none none none (some 2) [(3, 4)]).scale).1 = 1 ∧
    (2 : ℤ) ≠ 1 := by
  refine ⟨?_, ?_, by decide⟩ <;>
    norm_num [workerPlan, sizedWorker, rawExtent, scaleWorker, finalDimsWorker,
      finalDimsMain, scaledGap, jround]

/-- C5 (amended): final content dimensions are
`max(1, floor(raw × scale))` on the main-thread path but
`max(1, round(raw × scale))` on the worker path (never smaller than the
floor value), and the scaled gap is `round(gap × scale)` on both; in the
spec's `maxOutputHeight = 360` scenario both pipelines agree: scale 1/2,
final height exactly 360, gap scaled to 5, draw heights halved to
100, 100, 150. -/
theorem C5_final_dims :
    (∀ o a gap uw uh mw mh imgs,
      (mainPlan o a gap uw uh mw mh imgs).finalW =
        max 1 ⌊(mainPlan o a gap uw uh mw mh imgs).rawW *
          (mainPlan o a gap uw uh mw mh imgs).scale⌋ ∧
      (mainPlan o a gap uw uh mw mh imgs).finalH =
        max 1 ⌊(mainPlan o a gap uw uh mw mh imgs).rawH *
          (mainPlan o a gap uw uh mw mh imgs).scale⌋ ∧
      (workerPlan o a gap uw uh mw mh imgs).finalW =
        max 1 (jround ((workerPlan o a gap uw uh mw mh imgs).rawW *
          (workerPlan o a gap uw uh mw mh imgs).scale)) ∧
      (workerPlan o a gap uw uh mw mh imgs).finalH =
        max 1 (jround ((workerPlan o a gap uw uh mw mh imgs).rawH *
          (workerPlan o a gap uw uh mw mh imgs).scale)) ∧
      (mainPlan o a gap uw uh mw mh imgs).sgap =
        jround ((gap : ℚ) * (mainPlan o a gap uw uh mw mh imgs).scale) ∧
      (workerPlan o a gap uw uh mw mh imgs).sgap =
        jround ((gap : ℚ) * (workerPlan o a gap uw uh mw mh imgs).scale) ∧
      max 1 ⌊(workerPlan o a gap uw uh mw mh imgs).rawW *
          (workerPlan o a gap uw uh mw mh imgs).scale⌋ ≤
        (workerPlan o a gap uw uh mw mh imgs).finalW) ∧
    mainPlan .vertical .center 10 none none none (some 360)
        [(100, 200), (150, 200), (100, 300)] =
      ⟨150, 720, 1/2, 75, 360, 5,
        [⟨13, 0, 50, 100⟩, ⟨0, 105, 75, 100⟩, ⟨13, 210, 50, 150⟩]⟩ ∧
    workerPlan .vertical .center 10 none none none (some 360)
        [(100, 200), (150, 200), (100, 300)] =
      ⟨150, 720, 1/2, 75, 360, 5,
        [⟨13, 0, 50, 100⟩, ⟨0, 105, 75, 100⟩, ⟨13, 210, 50, 150⟩]⟩ := by
  refine ⟨fun o a gap uw uh mw mh imgs =>
    ⟨rfl, rfl, rfl, rfl, rfl, rfl,
      max_le_max le_rfl (floor_le_jround _)⟩, ?_, ?_⟩
  · norm_num [mainPlan, sizedMain, rawExtent, scaleMain, finalDimsMain, scaledGap,
      placeVertical, drawSize, alignOffset, jround]
  · norm_num [workerPlan, sizedWorker, rawExtent, scaleWorker, finalDimsWorker, scaledGap,
      placeVertical, drawSize, alignOffset, jround]

lemma runImagesAux_shape (n : ℕ) (cf : Option ℕ) :
    ∀ rem i, ∃ m, m ≤ rem ∧
      (runImagesAux n cf rem i).1 =
        (List.range m).map (fun j => Ev.progress (((i + j + 1 : ℕ) : ℚ) / (n : ℚ))) ∧
      ((runImagesAux n cf rem i).2 = true → m = rem) := by
  intro rem
  induction rem with
  | zero =>
    intro i
    exact ⟨0, le_rfl, rfl, fun _ => rfl⟩
  | succ k ih =>
    intro i
    by_cases hb : obs cf (i + 1) = true
    · refine ⟨0, Nat.zero_le _, by simp [runImagesAux, hb], ?_⟩
      intro ht
      exfalso
      simp [runImagesAux, hb] at ht
    · have hb2 : obs cf (i + 1) = false := by simpa using hb
      obtain ⟨m, hm, hfst, hsnd⟩ := ih (i + 1)
      refine ⟨m + 1, Nat.succ_le_succ hm, ?_, ?_⟩
      · simp only [runImagesAux, hb2, Bool.false_eq_true, if_false]
        have hfun : (fun j => Ev.progress ((((i + 1) + j + 1 : ℕ) : ℚ) / (n : ℚ))) =
            ((fun j => Ev.progress (((i + j + 1 : ℕ) : ℚ) / (n : ℚ))) ∘ Nat.succ) := by
          funext j
          simp only [Function.comp]
          congr 1
          push_cast
          ring
        rw [hfst, List.range_succ_eq_map, List.map_cons, List.map_map, hfun]
        congr 1
        · congr 1
          push_cast
          ring
      · intro ht
        have ht2 : (runImagesAux n cf k (i + 1)).2 = true := by
          simpa [runImagesAux, hb2] using ht
        rw [hsnd ht2]

lemma runImagesAux_complete_obs (n : ℕ) (cf : Option ℕ) :
    ∀ rem i, (runImagesAux n cf rem i).2 = true →
      ∀ k, i < k → k ≤ i + rem → obs cf k = false := by
  intro rem
  induction rem with
  | zero =>
    intro i _ k hik hk
    exact absurd hik (by omega)
  | succ r ihr =>
    intro i h k hik hk
    by_cases hb : obs cf (i + 1) = true
    · exfalso
      simp [runImagesAux, hb] at h
    · have hb2 : obs cf (i + 1) = false := by simpa using hb
      have h2 : (runImagesAux n cf r (i + 1)).2 = true := by
        simpa [runImagesAux, hb2] using h
      rcases eq_or_lt_of_le (Nat.succ_le_of_lt hik) with heq | hlt
      · rw [← heq]
        exact hb2
      · exact ihr (i + 1) h2 k hlt (by omega)

/-- C9 counterexample: with one image, a configured watermark image and
cancellation first observed at boundary 2 (the post-watermark check),
the worker posts progress 1.0 and then a `cancelled` terminal — so the
value 1.0 is reached on a job that does not succeed, contradicting
"1.0 is reached only on success". -/
theorem C9_progress_one_cex :
    workerRun 1 true (some 2) = ([Ev.progress 1, Ev.cancelledMsg], true) ∧
    Ev.progress 1 ∈ (workerRun 1 true (some 2)).1 ∧
    Ev.result ∉ (workerRun 1 true (some 2)).1 := by
  have h : workerRun 1 true (some 2) = ([Ev.progress 1, Ev.cancelledMsg], true) := by
    norm_num [workerRun, runImages, runImagesAux, obs]
  refine ⟨h, by simp [h], by simp [h]⟩

/-- C9 (amended): every worker job posts a sequence of progress events
with values `1/n, 2/n, …, m/n` for some `m ≤ n` — one per image in
strictly increasing index order, monotonically non-decreasing — followed
by exactly one terminal event, which is always last; a `result` or
`cancelled` terminal implies `m = n` (so progress 1.0 was posted), and a
`cancelled` terminal occurs only when a watermark image is configured.
Hence 1.0 is posted on every run that passes the last post-draw check,
not only on success; and on a run cancelled at a post-draw check the
last drawn image's progress event is suppressed (`m < n` with an error
terminal). -/
theorem C9_progress_trace (n : ℕ) (hasWm : Bool) (cf : Option ℕ) :
    ∃ m t,
      (workerRun n hasWm cf).1 =
        ((List.range m).map fun j => Ev.progress (((j + 1 : ℕ) : ℚ) / (n : ℚ))) ++ [t] ∧
      m ≤ n ∧
      (t = Ev.result ∨ t = Ev.cancelledMsg ∨ t = Ev.errorMsg "cancelled") ∧
      (t = Ev.result → m = n) ∧
      (t = Ev.cancelledMsg → m = n ∧ hasWm = true) := by
  obtain ⟨m, hm, hfst, hsnd⟩ := runImagesAux_shape n cf n 0
  have hfst0 : (runImages n cf).1 =
      (List.range m).map fun j => Ev.progress (((j + 1 : ℕ) : ℚ) / (n : ℚ)) := by
    rw [runImages, hfst]
    congr 1
    funext j
    norm_num
  by_cases h0 : obs cf 0 = true
  · exact ⟨0, Ev.errorMsg "cancelled", by simp [workerRun, h0], Nat.zero_le _,
      Or.inr (Or.inr rfl), by simp, by simp⟩
  · have h02 : obs cf 0 = false := by simpa using h0
    by_cases hr : (runImages n cf).2 = true
    · have hmn : m = n := hsnd (by rwa [runImages] at hr)
      cases hasWm with
      | false =>
        exact ⟨m, Ev.result, by simp [workerRun, h02, hr, hfst0], hm, Or.inl rfl,
          fun _ => hmn, by simp⟩
      | true =>
        by_cases h1 : obs cf (n + 1) = true
        · exact ⟨m, Ev.cancelledMsg, by simp [workerRun, h02, hr, h1, hfst0], hm,
            Or.inr (Or.inl rfl), by simp, fun _ => ⟨hmn, rfl⟩⟩
        · have h12 : obs cf (n + 1) = false := by simpa using h1
          exact ⟨m, Ev.result, by simp [workerRun, h02, hr, h12, hfst0], hm,
            Or.inl rfl, fun _ => hmn, by simp⟩
    · have hr2 : (runImages n cf).2 = false := by simpa using hr
      exact ⟨m, Ev.errorMsg "cancelled", by simp [workerRun, h02, hr2, hfst0], hm,
        Or.inr (Or.inr rfl), by simp, by simp⟩

/-- C10: a cancel message adds the job id to the module-level set
unconditionally; a request whose id is already marked dies at its very
first check boundary (terminal error trace, no result) and the id stays
in the set; and the id is removed from the set only by the cancellation
branch after the image-watermark step — a run deletes the id exactly
when a watermark image is configured and the flag is first observed at
boundary `n + 1`, so a job terminating through the thrown-cancellation
path (or a cancel with no job in flight) leaves the id marked. -/
theorem C10_cancelled_set (s : Finset String) (id : String) (n : ℕ) (hw : Bool)
    (arr : Option ℕ) (hmem : id ∈ s) :
    (∀ s2 id2, onCancel s2 id2 = insert id2 s2) ∧
    (workerJob s id n hw arr).1 = [Ev.errorMsg "cancelled"] ∧
    Ev.result ∉ (workerJob s id n hw arr).1 ∧
    id ∈ (workerJob s id n hw arr).2 ∧
    (∀ n2 hw2 cf2, (workerRun n2 hw2 cf2).2 = true →
      hw2 = true ∧ cf2 = some (n2 + 1)) := by
  have hjob : workerJob s id n hw arr = ([Ev.errorMsg "cancelled"], s) := by
    simp [workerJob, hmem, workerRun, obs]
  refine ⟨fun s2 id2 => rfl, by rw [hjob], by rw [hjob]; simp, by rw [hjob]; exact hmem, ?_⟩
  intro n2 hw2 cf2 h
  by_cases h0 : obs cf2 0 = true
  · exfalso
    simp [workerRun, h0] at h
  · have h02 : obs cf2 0 = false := by simpa using h0
    by_cases hr : (runImages n2 cf2).2 = true
    · cases hw2 with
      | false =>
        exfalso
        simp [workerRun, h02, hr] at h
      | true =>
        by_cases h1 : obs cf2 (n2 + 1) = true
        · refine ⟨rfl, ?_⟩
          rcases cf2 with _ | c
          · simp [obs] at h1
          · have hc1 : c ≤ n2 + 1 := by simpa [obs] using h1
            have hc0 : ¬ c ≤ 0 := by simpa [obs] using h02
            have hcomplete := runImagesAux_complete_obs n2 (some c) n2 0
              (by rwa [runImages] at hr)
            by_cases hcn : c ≤ n2
            · exfalso
              have := hcomplete c (by omega) (by omega)
              simp [obs] at this
            · have hcv : c = n2 + 1 := by omega
              rw [hcv]
        · exfalso
          have h12 : obs cf2 (n2 + 1) = false := by simpa using h1
          simp [workerRun, h02, hr, h12] at h
    · exfalso
      have hr2 : (runImages n2 cf2).2 = false := by simpa using hr
      simp [workerRun, h02, hr2] at h

/-- C10 witness. -/
theorem C10_cancelled_set_witness :
    "job1" ∈ ({"job1"} : Finset String) ∧
    ((∀ s2 id2, onCancel s2 id2 = insert id2 s2) ∧
      (workerJob {"job1"} "job1" 2 true none).1 = [Ev.errorMsg "cancelled"] ∧
      Ev.result ∉ (workerJob {"job1"} "job1" 2 true none).1 ∧
      "job1" ∈ (workerJob {"job1"} "job1" 2 true none).2 ∧
      (∀ n2 hw2 cf2, (workerRun n2 hw2 cf2).2 = true →
        hw2 = true ∧ cf2 = some (n2 + 1))) :=
  ⟨by simp, C10_cancelled_set {"job1"} "job1" 2 true none (by simp)⟩

/-- C7 witness. -/
theorem C7_watermark_scale_offsets_witness :
    (3 : ℚ) ≠ 0 ∧
    ((wmImageSize 200 (1/5) 3 9).1 = (1/5) * 200 ∧
      (wmImageSize 200 (1/5) 3 9).2 * 3 = 9 * (wmImageSize 200 (1/5) 3 9).1 ∧
      wmDrawAtWorker 10 10 5 7 = (10 + 5, 10 + 7) ∧
      wmDrawAtMain 10 10 5 7 = (10, 10)) :=
  ⟨by norm_num, C7_watermark_scale_offsets 200 (1/5) 3 9 10 10 5 7 (by norm_num)⟩

end ImageStitcher
